import Mathlib

/-!
# Verification of the color-matching utilities of `neural_style/utils.py`

This file gives a shallow embedding of the numeric routines in
`src/neural_style/utils.py` of this repository (`matSqrt`, `color_match`,
`preprocess_batch`, `StyleLoader`) and proves or refutes the specified
properties about them.

Modelling conventions:

* Tensor scalars are modelled by an arbitrary linearly ordered field `K`
  (instantiated at `ℚ` for executable witnesses and at `ℝ` where irrational
  square roots are required by the data).
* The two library black boxes the code calls, `torch.sqrt`-style square roots
  (`Tensor.std`, `Tensor.pow(0.5)`) and `torch.svd`, are passed in as explicit
  function parameters `sq : K → K` and
  `svd : Mat3 K → Mat3 K × (Fin 3 → K) × Mat3 K`; theorems constrain them with
  the defining properties of a square root / a singular value decomposition at
  the points where the code uses them, or instantiate them with concrete data.
  Passing the same function everywhere models the determinism of the library
  routines.
* A 3×H×W image tensor is modelled by `Img` below, holding its shape and its
  `view(3, -1)` flattening (a `Matrix (Fin 3) (Fin (h*w)) K`).
* Python `*` on tensors is elementwise multiplication (`Matrix.hadamard`);
  Python `@` is the matrix product; both appear in the source and are
  translated accordingly.
* `Tensor.inverse()` is the exact 3×3 matrix inverse, written out with the
  cofactor formula (`inv3`); on singular input the real code raises, so
  theorems that need the inverse carry a nonzero-determinant hypothesis.
-/

namespace NeuralStyle

open Matrix

variable {K : Type} [LinearOrderedField K]

/-- 3×3 matrices over the scalar field, the type of `torch.eye(3)`-shaped data. -/
abbrev Mat3 (K : Type) := Matrix (Fin 3) (Fin 3) K

/-- The `view(3, -1)` flattening of a 3-channel image: 3 rows of `n` pixels. -/
abbrev Flat (K : Type) (n : ℕ) := Matrix (Fin 3) (Fin n) K

/-- An image tensor of shape (3, h, w), stored with its flattening. -/
structure Img (K : Type) where
  h : ℕ
  w : ℕ
  pix : Flat K (h * w)

/-- `flat.mean(1, True)` — per-channel mean across the flattened pixels. -/
def rowMean {n : ℕ} (A : Flat K n) (i : Fin 3) : K :=
  (∑ j, A i j) / (n : K)

/-- `flat.std(1, True)` squared — the unbiased (N−1) per-channel variance; the
library then takes its square root, modelled by applying the `sq` oracle. -/
def rowVar {n : ℕ} (A : Flat K n) (i : Fin 3) : K :=
  (∑ j, (A i j - rowMean A i) ^ 2) / ((n : K) - 1)

/-- Lines 143-149: `(flat - mean) / std`, with `std = sq (rowVar ...)`. -/
def normOf {n : ℕ} (sq : K → K) (A : Flat K n) : Flat K n :=
  Matrix.of fun i j => (A i j - rowMean A i) / sq (rowVar A i)

/-- Lines 135-137, `matSqrt(x)`: `U * (D.pow(0.5).diag()) * V.t()` where
`U, D, V = torch.svd(x)`.  Python `*` on tensors is **elementwise**
multiplication, so this is a Hadamard product chain, not a matrix product.
The argument `t` is the `(U, D, V)` triple returned by `torch.svd(x)`. -/
def matSqrt (sq : K → K) (t : Mat3 K × (Fin 3 → K) × Mat3 K) : Mat3 K :=
  Matrix.hadamard (Matrix.hadamard t.1 (Matrix.diagonal fun i => sq (t.2.1 i))) t.2.2ᵀ

/-- What the specification (§4.1) says `matSqrt` is: the **matrix product**
`U · diag(sqrt D) · Vᵀ`.  Kept separate so the code's elementwise version can
be compared against it. -/
def matSqrt_spec (sq : K → K) (t : Mat3 K × (Fin 3 → K) × Mat3 K) : Mat3 K :=
  t.1 * Matrix.diagonal (fun i => sq (t.2.1 i)) * t.2.2ᵀ

/-- `t = (U, D, V)` is a valid singular value decomposition of `x`:
orthogonal factors, nonnegative `D`, recomposition equal to `x`. -/
def validSVD (x : Mat3 K) (t : Mat3 K × (Fin 3 → K) × Mat3 K) : Prop :=
  t.1ᵀ * t.1 = 1 ∧ t.1 * t.1ᵀ = 1 ∧ t.2.2ᵀ * t.2.2 = 1 ∧ t.2.2 * t.2.2ᵀ = 1 ∧
    (∀ i, 0 ≤ t.2.1 i) ∧ t.1 * Matrix.diagonal t.2.1 * t.2.2ᵀ = x

/-- `A.det()` for a 3×3 matrix, written out. -/
def det3 (A : Mat3 K) : K :=
  A 0 0 * (A 1 1 * A 2 2 - A 1 2 * A 2 1)
    - A 0 1 * (A 1 0 * A 2 2 - A 1 2 * A 2 0)
    + A 0 2 * (A 1 0 * A 2 1 - A 1 1 * A 2 0)

/-- `A.inverse()` for a 3×3 matrix: the cofactor (adjugate) formula.  The
library raises on singular input; here the value is junk when `det3 A = 0`
and theorems that rely on the inverse assume `det3 A ≠ 0`. -/
def inv3 (A : Mat3 K) : Mat3 K :=
  (det3 A)⁻¹ • Matrix.of
    ![![A 1 1 * A 2 2 - A 1 2 * A 2 1,
        A 0 2 * A 2 1 - A 0 1 * A 2 2,
        A 0 1 * A 1 2 - A 0 2 * A 1 1],
      ![A 1 2 * A 2 0 - A 1 0 * A 2 2,
        A 0 0 * A 2 2 - A 0 2 * A 2 0,
        A 0 2 * A 1 0 - A 0 0 * A 1 2],
      ![A 1 0 * A 2 1 - A 1 1 * A 2 0,
        A 0 1 * A 2 0 - A 0 0 * A 2 1,
        A 0 0 * A 1 1 - A 0 1 * A 1 0]]

/-- Lines 152-159: `norm @ norm.t() + eye(3)`.  The two branches of the
source differ only in the device placement of `torch.eye(3)` (`.cuda()` or
not); the numeric value added is the identity either way. -/
def covEye {n : ℕ} (cud : Bool) (N : Flat K n) : Mat3 K :=
  if cud then N * Nᵀ + 1 else N * Nᵀ + 1

/-- Lines 139-163, `color_match(src, dst, cuda)` on the flattened views.
`sq` models the library square root, `svd` models `torch.svd`
(see the file header).  Note line 161 mixes Python `*` (elementwise,
`Matrix.hadamard`) with `@` (matrix product): with Python's left-to-right
precedence it reads
`(matSqrt(dst_cov) * matSqrt(src_cov).inverse()) @ src_norm`. -/
def color_match_flat {m n : ℕ} (sq : K → K)
    (svd : Mat3 K → Mat3 K × (Fin 3 → K) × Mat3 K)
    (cuda avail : Bool) (src_flat : Flat K m) (dst_flat : Flat K n) : Flat K m :=
  let src_norm := normOf sq src_flat
  let dst_mean := rowMean dst_flat
  let dst_std := fun i => sq (rowVar dst_flat i)
  let dst_norm := normOf sq dst_flat
  let cud := cuda && avail
  let src_flat_cov_eye := covEye cud src_norm
  let dst_flat_cov_eye := covEye cud dst_norm
  let trans : Flat K m :=
    Matrix.hadamard (matSqrt sq (svd dst_flat_cov_eye))
        (inv3 (matSqrt sq (svd src_flat_cov_eye))) * src_norm
  Matrix.of fun i j => trans i j * dst_std i + dst_mean i

/-- What claim C2 / spec §4.2 steps 4-5 say the transform is: the **matrix
product** `T = sqrt(dst_cov) · inverse(sqrt(src_cov))` (square roots per
§4.1) applied as `T @ src_norm`, then de-normalised per channel. -/
def color_match_spec_flat {m n : ℕ} (sq : K → K)
    (svd : Mat3 K → Mat3 K × (Fin 3 → K) × Mat3 K)
    (cuda avail : Bool) (src_flat : Flat K m) (dst_flat : Flat K n) : Flat K m :=
  let src_norm := normOf sq src_flat
  let dst_mean := rowMean dst_flat
  let dst_std := fun i => sq (rowVar dst_flat i)
  let dst_norm := normOf sq dst_flat
  let cud := cuda && avail
  let trans : Flat K m :=
    matSqrt_spec sq (svd (covEye cud dst_norm))
        * inv3 (matSqrt_spec sq (svd (covEye cud src_norm))) * src_norm
  Matrix.of fun i j => trans i j * dst_std i + dst_mean i

/-- `color_match` on image tensors: `view(3,-1)` at entry, `view_as(src)` at
exit (line 163), so the result carries `src`'s shape. -/
def color_match (sq : K → K) (svd : Mat3 K → Mat3 K × (Fin 3 → K) × Mat3 K)
    (cuda avail : Bool) (src dst : Img K) : Img K :=
  ⟨src.h, src.w, color_match_flat sq svd cuda avail src.pix dst.pix⟩

/-- Symmetric positive-definite, the precondition of claim C1. -/
def PosDef3 (A : Mat3 ℚ) : Prop :=
  Aᵀ = A ∧ ∀ v : Fin 3 → ℚ, v ≠ 0 → 0 < Matrix.dotProduct v (A.mulVec v)

/-- A concrete symmetric positive-definite 3×3 matrix. -/
def x0 : Mat3 ℚ := !![2, 1, 0; 1, 2, 0; 0, 0, 1]

/-! ### Concrete test data over `ℚ` -/

/-- A 3×3 source image (flattened): channel deviations `(2,-2,0,...)`,
`(0,0,2,-2,0,...)`, `(0,0,0,0,2,-2,...)` around means 10, 20, 30; each channel
has unbiased variance 1 and the channels are orthogonal, so its
covariance-plus-identity matrix is `9·I`. -/
def srcData : Flat ℚ 9 :=
  Matrix.of ![![12, 8, 10, 10, 10, 10, 10, 10, 10],
              ![20, 20, 22, 18, 20, 20, 20, 20, 20],
              ![30, 30, 30, 30, 32, 28, 30, 30, 30]]

/-- A 5×5 destination image (flattened): per-channel deviations are six
`±2`s on disjoint supports around means 40, 50, 60; unbiased variance 1 per
channel, covariance-plus-identity `25·I`. -/
def dstData25 : Flat ℚ 25 :=
  Matrix.of ![![42, 38, 42, 38, 42, 38, 40, 40, 40, 40, 40, 40, 40, 40, 40,
               40, 40, 40, 40, 40, 40, 40, 40, 40, 40],
              ![50, 50, 50, 50, 50, 50, 52, 48, 52, 48, 52, 48, 50, 50, 50,
               50, 50, 50, 50, 50, 50, 50, 50, 50, 50],
              ![60, 60, 60, 60, 60, 60, 60, 60, 60, 60, 60, 60, 62, 58, 62,
               58, 62, 58, 60, 60, 60, 60, 60, 60, 60]]

/-- A square-root table sufficient for the values occurring in the concrete
runs (1, 9, 25); models the library square root there. -/
def sqQ : ℚ → ℚ := fun q =>
  if q = 1 then 1 else if q = 9 then 3 else if q = 25 then 5 else 0

/-- An svd routine that is valid on the scalar covariance matrices occurring
in the concrete runs: on `c·I` it returns `(I, (c,c,c), I)`. -/
def svdDiag : Mat3 ℚ → Mat3 ℚ × (Fin 3 → ℚ) × Mat3 ℚ :=
  fun A => (1, fun _ => A 0 0, 1)

/-- The normalised `srcData`: per-channel deviations (standard deviations
are all 1). -/
def srcDev : Flat ℚ 9 :=
  Matrix.of ![![2, -2, 0, 0, 0, 0, 0, 0, 0],
              ![0, 0, 2, -2, 0, 0, 0, 0, 0],
              ![0, 0, 0, 0, 2, -2, 0, 0, 0]]

/-- The normalised `dstData25`. -/
def dstDev : Flat ℚ 25 :=
  Matrix.of ![![2, -2, 2, -2, 2, -2, 0, 0, 0, 0, 0, 0, 0, 0, 0,
               0, 0, 0, 0, 0, 0, 0, 0, 0, 0],
              ![0, 0, 0, 0, 0, 0, 2, -2, 2, -2, 2, -2, 0, 0, 0,
               0, 0, 0, 0, 0, 0, 0, 0, 0, 0],
              ![0, 0, 0, 0, 0, 0, 0, 0, 0, 0, 0, 0, 2, -2, 2,
               -2, 2, -2, 0, 0, 0, 0, 0, 0, 0]]

/-- The output of the concrete C5 run: each channel of `srcData` scaled by
`5/3` around `dstData25`'s channel means. -/
def outData : Flat ℚ 9 :=
  Matrix.of ![![130/3, 110/3, 40, 40, 40, 40, 40, 40, 40],
              ![50, 50, 160/3, 140/3, 50, 50, 50, 50, 50],
              ![60, 60, 60, 60, 190/3, 170/3, 60, 60, 60]]

/-! ### C2: the coded transform vs the specified transform, over `ℝ`

The destination image below has correlated channels 0 and 1, so its
covariance-plus-identity matrix `!![9,4,0; 4,9,0; 0,0,9]` has the genuinely
irrational SVD `U₂ · diag(13, 9, 5) · U₂ᵀ`; the scalars are therefore `ℝ` and
the square-root oracle is the real `Real.sqrt` itself. -/

/-- The source image of the C2 run (same pixel values as `srcData`). -/
def srcDataR : Flat ℝ 9 :=
  Matrix.of ![![12, 8, 10, 10, 10, 10, 10, 10, 10],
              ![20, 20, 22, 18, 20, 20, 20, 20, 20],
              ![30, 30, 30, 30, 32, 28, 30, 30, 30]]

/-- Its per-channel deviations (all standard deviations are 1). -/
def srcDevR : Flat ℝ 9 :=
  Matrix.of ![![2, -2, 0, 0, 0, 0, 0, 0, 0],
              ![0, 0, 2, -2, 0, 0, 0, 0, 0],
              ![0, 0, 0, 0, 2, -2, 0, 0, 0]]

/-- The destination image of the C2 run: channels 0 and 1 are correlated
(`dev₀ · dev₁ = 4`), channel 2 is independent; all unbiased variances are 1. -/
def dstDataR : Flat ℝ 9 :=
  Matrix.of ![![42, 38, 40, 40, 40, 40, 40, 40, 40],
              ![52, 50, 48, 50, 50, 50, 50, 50, 50],
              ![60, 60, 60, 60, 60, 60, 60, 62, 58]]

/-- Its per-channel deviations. -/
def dstDevR : Flat ℝ 9 :=
  Matrix.of ![![2, -2, 0, 0, 0, 0, 0, 0, 0],
              ![2, 0, -2, 0, 0, 0, 0, 0, 0],
              ![0, 0, 0, 0, 0, 0, 0, 2, -2]]

/-- `dstDataR`'s covariance-plus-identity matrix. -/
def covDR : Mat3 ℝ := !![9, 4, 0; 4, 9, 0; 0, 0, 9]

/-- `srcDataR`'s covariance-plus-identity matrix. -/
def covSR : Mat3 ℝ := !![9, 0, 0; 0, 9, 0; 0, 0, 9]

/-- The orthogonal eigenvector matrix of `covDR`: columns
`(1,1,0)/√2`, `(0,0,1)`, `(1,-1,0)/√2` for eigenvalues 13, 9, 5 (in the
descending order the library uses). -/
noncomputable def U2R : Mat3 ℝ :=
  !![Real.sqrt 2 / 2, 0, Real.sqrt 2 / 2;
     Real.sqrt 2 / 2, 0, -(Real.sqrt 2 / 2);
     0, 1, 0]

/-- An svd routine valid on both covariance matrices of the C2 run: it
interpolates on the (0,1) entry (0 for `covSR`, 4 for `covDR`), giving
`(I, (9,9,9), I)` at `covSR` and `(U2R, (13,9,5), U2R)` at `covDR`. -/
noncomputable def svdR : Mat3 ℝ → Mat3 ℝ × (Fin 3 → ℝ) × Mat3 ℝ := fun A =>
  ((1 - A 0 1 / 4) • (1 : Mat3 ℝ) + (A 0 1 / 4) • U2R,
   fun i => (1 - A 0 1 / 4) * 9 + (A 0 1 / 4) * ![13, 9, 5] i,
   (1 - A 0 1 / 4) • (1 : Mat3 ℝ) + (A 0 1 / 4) • U2R)

/-! ### `preprocess_batch` (lines 92-98) -/

/-- A 4-dimensional batch tensor of shape (B, 3, H, W): exactly 3 channels in
dimension 1, unbounded index functions elsewhere. -/
def Batch (α : Type) := ℕ → Fin 3 → ℕ → ℕ → α

/-- Line 94 / 97: `batch.transpose(0, 1)` — swap the batch and channel axes. -/
def transpose01 {α : Type} (t : ℕ → Fin 3 → ℕ → ℕ → α) : Fin 3 → ℕ → ℕ → ℕ → α :=
  fun c b y x => t b c y x

/-- Line 97: transposing back. -/
def transpose01back {α : Type} (t : Fin 3 → ℕ → ℕ → ℕ → α) : ℕ → Fin 3 → ℕ → ℕ → α :=
  fun b c y x => t c b y x

/-- Lines 95-96: `(r, g, b) = torch.chunk(batch, 3)` along dim 0 followed by
`torch.cat((b, g, r))`: the result's chunk `c` is the input's chunk `2 - c`,
i.e. the channel axis is reversed. -/
def catBGR {α : Type} (t : Fin 3 → ℕ → ℕ → ℕ → α) : Fin 3 → ℕ → ℕ → ℕ → α :=
  fun c => t (![2, 1, 0] c)

/-- Lines 92-98: `preprocess_batch`, RGB → BGR. -/
def preprocess_batch {α : Type} (batch : Batch α) : Batch α :=
  transpose01back (catBGR (transpose01 batch))

/-! ### `StyleLoader` (lines 114-133) -/

/-- The state built by `StyleLoader.__init__` (lines 115-119): the folder, the
requested style size, the directory listing, and the cuda flag. -/
structure StyleLoader where
  folder : String
  style_size : ℕ
  files : List String
  cuda : Bool

/-- Line 133: `size()` is `len(self.files)`. -/
def StyleLoader.size (L : StyleLoader) : ℕ := L.files.length

/-- Line 122: the index used by `get(i)` is `i % len(self.files)`. -/
def StyleLoader.getIdx (L : StyleLoader) (i : ℕ) : ℕ := i % L.files.length

/-- Line 123: the file `get(i)` goes on to load, `self.files[idx]`.  The rest
of `get` (image decoding, resizing, `unsqueeze`, `preprocess_batch`, device
placement) consumes this file; which file is accessed is fully determined
here. -/
def StyleLoader.getFile (L : StyleLoader) (i : ℕ) : String :=
  L.files.getD (L.getIdx i) default

/-- A concrete two-file loader used by the C10 witness. -/
def loaderX : StyleLoader :=
  { folder := "styles", style_size := 512, files := ["a.jpg", "b.jpg"], cuda := true }

/-- The code's `matSqrt` is a chain of elementwise products with a diagonal
matrix in the middle, so every off-diagonal entry vanishes, whatever
`torch.svd` returned. -/
theorem matSqrt_apply_ne (sq : K → K) (t : Mat3 K × (Fin 3 → K) × Mat3 K)
    {i j : Fin 3} (hij : i ≠ j) : matSqrt sq t i j = 0 := by
  simp [matSqrt, Matrix.hadamard, Matrix.diagonal, hij]

theorem x0_posDef : PosDef3 x0 := by
  constructor
  · decide
  · intro v hv
    have hx : Matrix.dotProduct v (x0.mulVec v)
        = 2 * v 0 ^ 2 + 2 * (v 0 * v 1) + 2 * v 1 ^ 2 + v 2 ^ 2 := by
      simp [x0, Matrix.dotProduct, Matrix.mulVec, Fin.sum_univ_three]
      ring
    have hne : v 0 ≠ 0 ∨ v 1 ≠ 0 ∨ v 2 ≠ 0 := by
      by_contra hc
      push_neg at hc
      exact hv (funext fun i => by fin_cases i <;> simp [hc.1, hc.2.1, hc.2.2])
    rw [hx]
    rcases hne with h | h | h
    · nlinarith [sq_nonneg (v 0 + v 1), sq_nonneg (v 1), sq_nonneg (v 2),
        mul_self_pos.mpr h, sq_abs (v 0)]
    · nlinarith [sq_nonneg (v 0 + v 1), sq_nonneg (v 0), sq_nonneg (v 2),
        mul_self_pos.mpr h, sq_abs (v 1)]
    · nlinarith [sq_nonneg (v 0 + v 1), sq_nonneg (v 0), sq_nonneg (v 1),
        mul_self_pos.mpr h, sq_abs (v 2)]

/-- **C1** (refuted, code bug).  The claim says that for every symmetric
positive-definite 3×3 matrix `x`, `matSqrt(x)` returns `R` with `R·R = x`
(within tolerance), `R` being `U · diag(sqrt D) · Vᵀ` of `x`'s SVD.  The code
instead multiplies the factors **elementwise** (Python `*`), which always
yields a diagonal matrix.  Hence for the symmetric positive-definite matrix
`x0` — whose (0,1) entry is 1 — the square of the returned matrix has (0,1)
entry 0, off by 1 from `x0`, for *every* possible output of `torch.svd` and
every square-root routine: no tolerance of the stated order (1e-4) is met. -/
theorem C1_matSqrt_not_a_square_root :
    PosDef3 x0 ∧ x0 0 1 = 1 ∧
      ∀ (sq : ℚ → ℚ) (t : Mat3 ℚ × (Fin 3 → ℚ) × Mat3 ℚ),
        (matSqrt sq t * matSqrt sq t) 0 1 = 0 ∧ matSqrt sq t * matSqrt sq t ≠ x0 := by
  refine ⟨x0_posDef, by decide, fun sq t => ?_⟩
  have h01 : (matSqrt sq t * matSqrt sq t) 0 1 = 0 := by
    rw [Matrix.mul_apply, Fin.sum_univ_three]
    rw [matSqrt_apply_ne sq t (by decide : (0 : Fin 3) ≠ 1),
      matSqrt_apply_ne sq t (by decide : (0 : Fin 3) ≠ 2),
      matSqrt_apply_ne sq t (by decide : (2 : Fin 3) ≠ 1)]
    ring
  refine ⟨h01, fun heq => ?_⟩
  have : (0 : ℚ) = 1 := by
    calc (0 : ℚ) = (matSqrt sq t * matSqrt sq t) 0 1 := h01.symm
    _ = x0 0 1 := by rw [heq]
    _ = 1 := by decide
  exact absurd this (by norm_num)

/-- Witness for C1: the refutation instantiated at a concrete `sq` and a
concrete svd triple. -/
theorem C1_witness :
    matSqrt (fun x : ℚ => x) ((1 : Mat3 ℚ), (fun _ => (1 : ℚ)), (1 : Mat3 ℚ))
      * matSqrt (fun x : ℚ => x) ((1 : Mat3 ℚ), (fun _ => (1 : ℚ)), (1 : Mat3 ℚ)) ≠ x0 :=
  (C1_matSqrt_not_a_square_root.2.2 (fun x => x) (1, (fun _ => 1), 1)).2

/-- A matrix with zero off-diagonal entries and nonzero determinant satisfies
`hadamard S (inv3 S) = 1`: the elementwise product of a diagonal matrix with
its inverse is the identity. -/
theorem hadamard_inv3_of_offdiag_zero (S : Mat3 K)
    (hdiag : ∀ i j : Fin 3, i ≠ j → S i j = 0) (hdet : det3 S ≠ 0) :
    Matrix.hadamard S (inv3 S) = 1 := by
  have h01 := hdiag 0 1 (by decide)
  have h02 := hdiag 0 2 (by decide)
  have h10 := hdiag 1 0 (by decide)
  have h12 := hdiag 1 2 (by decide)
  have h20 := hdiag 2 0 (by decide)
  have h21 := hdiag 2 1 (by decide)
  have hdet' : det3 S = S 0 0 * (S 1 1 * S 2 2) := by
    simp [det3, h01, h02, h10, h12, h20, h21]
  have hprod : S 0 0 * (S 1 1 * S 2 2) ≠ 0 := hdet' ▸ hdet
  have h0 : S 0 0 ≠ 0 := left_ne_zero_of_mul hprod
  have h1 : S 1 1 ≠ 0 := left_ne_zero_of_mul (right_ne_zero_of_mul hprod)
  have h2 : S 2 2 ≠ 0 := right_ne_zero_of_mul (right_ne_zero_of_mul hprod)
  ext i j
  fin_cases i <;> fin_cases j <;>
    simp [Matrix.hadamard, inv3, hdet', Matrix.one_apply,
      h01, h02, h10, h12, h20, h21] <;>
    field_simp <;> ring

/-- Core of C3 on the flattened views: matching an image's statistics to
itself is the identity.  Hypotheses: each channel's standard deviation is
nonzero (non-constant channels), and the matrix that line 161 inverts is
nonsingular (otherwise the library call raises). -/
theorem color_match_flat_self {n : ℕ} (sq : K → K)
    (svd : Mat3 K → Mat3 K × (Fin 3 → K) × Mat3 K)
    (cuda avail : Bool) (A : Flat K n)
    (hstd : ∀ i, sq (rowVar A i) ≠ 0)
    (hdet : det3 (matSqrt sq (svd (covEye (cuda && avail) (normOf sq A)))) ≠ 0) :
    color_match_flat sq svd cuda avail A A = A := by
  simp only [color_match_flat,
    hadamard_inv3_of_offdiag_zero _ (fun i j hij => matSqrt_apply_ne sq _ hij) hdet,
    Matrix.one_mul]
  ext i j
  simp only [Matrix.of_apply, normOf]
  field_simp [hstd i]

/-- **C3** (confirmed).  For every image with non-constant channels (and a
successful inverse on line 161), `color_match(x, x) = x` — exactly, hence in
particular within floating-point tolerance.  The two `torch.svd` calls see the
same covariance matrix, so (determinism) they return the same triple; the
elementwise `matSqrt` output is diagonal, and the elementwise product of a
diagonal matrix with its inverse is the identity transform. -/
theorem C3_color_match_self_identity (sq : K → K)
    (svd : Mat3 K → Mat3 K × (Fin 3 → K) × Mat3 K)
    (cuda avail : Bool) (x : Img K)
    (hstd : ∀ i, sq (rowVar x.pix i) ≠ 0)
    (hdet : det3 (matSqrt sq (svd (covEye (cuda && avail) (normOf sq x.pix)))) ≠ 0) :
    color_match sq svd cuda avail x x = x := by
  obtain ⟨h, w, A⟩ := x
  unfold color_match
  rw [color_match_flat_self sq svd cuda avail A hstd hdet]

/-- The per-channel sum of the normalised matrix is zero. -/
theorem rowSum_normOf_eq_zero {n : ℕ} (hn : (n : K) ≠ 0) (sq : K → K)
    (A : Flat K n) (k : Fin 3) : (∑ j, normOf sq A k j) = 0 := by
  have hsum : (∑ j, (A k j - rowMean A k)) = 0 := by
    rw [Finset.sum_sub_distrib, Finset.sum_const, Finset.card_univ, Fintype.card_fin,
      rowMean]
    field_simp
  calc (∑ j, normOf sq A k j)
      = ∑ j, (A k j - rowMean A k) / sq (rowVar A k) := by
        simp only [normOf, Matrix.of_apply]
    _ = (∑ j, (A k j - rowMean A k)) / sq (rowVar A k) := by
        rw [← Finset.sum_div]
    _ = 0 := by rw [hsum, zero_div]

/-- Amended C5 (the part that holds): the channel-wise mean of
`color_match(src, dst)` equals the channel-wise mean of `dst` exactly — the
transform is applied to zero-mean data and de-normalised with `dst`'s mean. -/
theorem C5_mean_matches_dst {m n : ℕ} (hm : 0 < m) (sq : K → K)
    (svd : Mat3 K → Mat3 K × (Fin 3 → K) × Mat3 K)
    (cuda avail : Bool) (src : Flat K m) (dst : Flat K n) (i : Fin 3) :
    rowMean (color_match_flat sq svd cuda avail src dst) i = rowMean dst i := by
  have hm' : ((m : K)) ≠ 0 := Nat.cast_ne_zero.mpr hm.ne'
  have htrans : (∑ j, (Matrix.hadamard
      (matSqrt sq (svd (covEye (cuda && avail) (normOf sq dst))))
      (inv3 (matSqrt sq (svd (covEye (cuda && avail) (normOf sq src)))))
        * normOf sq src) i j) = 0 := by
    simp only [Matrix.mul_apply]
    rw [Finset.sum_comm]
    refine Finset.sum_eq_zero fun k _ => ?_
    rw [← Finset.mul_sum, rowSum_normOf_eq_zero hm' sq src k, mul_zero]
  rw [rowMean]
  simp only [color_match_flat, Matrix.of_apply]
  rw [Finset.sum_add_distrib, ← Finset.sum_mul, htrans, zero_mul, zero_add,
    Finset.sum_const, Finset.card_univ, Fintype.card_fin, nsmul_eq_mul,
    mul_div_cancel_left₀ _ hm']

theorem rowMean_src : ∀ i, rowMean srcData i = ![(10 : ℚ), 20, 30] i := by
  intro i
  fin_cases i <;> norm_num [rowMean, srcData, Fin.sum_univ_succ]

theorem rowVar_src : ∀ i, rowVar srcData i = 1 := by
  intro i
  fin_cases i <;> norm_num [rowVar, rowMean, srcData, Fin.sum_univ_succ]

theorem sq_rowVar_src : ∀ i, sqQ (rowVar srcData i) = 1 := by
  intro i
  rw [rowVar_src i]
  norm_num [sqQ]

theorem normOf_src : normOf sqQ srcData = srcDev := by
  ext i j
  simp only [normOf, Matrix.of_apply, sq_rowVar_src i]
  rw [rowMean_src i]
  fin_cases i <;> fin_cases j <;> norm_num [srcData, srcDev]

theorem rowMean_dst : ∀ i, rowMean dstData25 i = ![(40 : ℚ), 50, 60] i := by
  intro i
  fin_cases i <;> norm_num [rowMean, dstData25, Fin.sum_univ_succ]

theorem rowVar_dst : ∀ i, rowVar dstData25 i = 1 := by
  intro i
  fin_cases i <;> norm_num [rowVar, rowMean, dstData25, Fin.sum_univ_succ]

theorem sq_rowVar_dst : ∀ i, sqQ (rowVar dstData25 i) = 1 := by
  intro i
  rw [rowVar_dst i]
  norm_num [sqQ]

theorem normOf_dst : normOf sqQ dstData25 = dstDev := by
  ext i j
  simp only [normOf, Matrix.of_apply, sq_rowVar_dst i]
  rw [rowMean_dst i]
  fin_cases i <;> fin_cases j <;> norm_num [dstData25, dstDev]

theorem mul_transpose_apply {n : ℕ} (N : Flat K n) (i j : Fin 3) :
    (N * Nᵀ) i j = ∑ k, N i k * N j k := by
  simp [Matrix.mul_apply, Matrix.transpose_apply]

theorem covEye_src : covEye false srcDev = !![(9 : ℚ), 0, 0; 0, 9, 0; 0, 0, 9] := by
  ext i j
  simp only [covEye, Bool.false_eq_true, if_false, Matrix.add_apply, mul_transpose_apply,
    Matrix.one_apply]
  fin_cases i <;> fin_cases j <;>
    norm_num [srcDev, Fin.sum_univ_succ, -Matrix.cons_val', Matrix.cons_val_zero,
      Matrix.cons_val_succ, Matrix.cons_val_one, Matrix.head_cons] <;> decide

theorem covEye_dst : covEye false dstDev = !![(25 : ℚ), 0, 0; 0, 25, 0; 0, 0, 25] := by
  ext i j
  simp only [covEye, Bool.false_eq_true, if_false, Matrix.add_apply, mul_transpose_apply,
    Matrix.one_apply]
  fin_cases i <;> fin_cases j <;>
    norm_num [dstDev, Fin.sum_univ_succ, -Matrix.cons_val', Matrix.cons_val_zero,
      Matrix.cons_val_succ, Matrix.cons_val_one, Matrix.head_cons] <;> decide

theorem matSqrt_cov9 :
    matSqrt sqQ (svdDiag !![(9 : ℚ), 0, 0; 0, 9, 0; 0, 0, 9])
      = !![(3 : ℚ), 0, 0; 0, 3, 0; 0, 0, 3] := by
  ext i j
  fin_cases i <;> fin_cases j <;>
    norm_num [matSqrt, svdDiag, sqQ, Matrix.hadamard, Matrix.diagonal, Matrix.one_apply,
      Matrix.transpose_apply] <;> decide

theorem matSqrt_cov25 :
    matSqrt sqQ (svdDiag !![(25 : ℚ), 0, 0; 0, 25, 0; 0, 0, 25])
      = !![(5 : ℚ), 0, 0; 0, 5, 0; 0, 0, 5] := by
  ext i j
  fin_cases i <;> fin_cases j <;>
    norm_num [matSqrt, svdDiag, sqQ, Matrix.hadamard, Matrix.diagonal, Matrix.one_apply,
      Matrix.transpose_apply] <;> decide

theorem inv3_diag3 :
    inv3 !![(3 : ℚ), 0, 0; 0, 3, 0; 0, 0, 3]
      = !![(1 : ℚ)/3, 0, 0; 0, 1/3, 0; 0, 0, 1/3] := by
  ext i j
  fin_cases i <;> fin_cases j <;>
    norm_num [inv3, det3, Matrix.vecHead, Matrix.vecTail, Function.comp]

theorem cm_eval :
    color_match_flat sqQ svdDiag false false srcData dstData25 = outData := by
  simp only [color_match_flat, Bool.and_self, normOf_src, normOf_dst,
    covEye_src, covEye_dst, matSqrt_cov9, matSqrt_cov25, inv3_diag3]
  ext i j
  simp only [Matrix.of_apply, sq_rowVar_dst i]
  rw [rowMean_dst i]
  fin_cases i <;> fin_cases j <;>
    norm_num [Matrix.mul_apply, Matrix.hadamard, srcDev, outData, Fin.sum_univ_succ]

theorem validSVD_cov9 :
    validSVD !![(9 : ℚ), 0, 0; 0, 9, 0; 0, 0, 9]
      (svdDiag !![(9 : ℚ), 0, 0; 0, 9, 0; 0, 0, 9]) := by
  refine ⟨by simp [svdDiag], by simp [svdDiag], by simp [svdDiag], by simp [svdDiag],
    fun i => by norm_num [svdDiag], ?_⟩
  simp only [svdDiag, Matrix.transpose_one, Matrix.one_mul, Matrix.mul_one]
  ext i j
  fin_cases i <;> fin_cases j <;> norm_num [Matrix.diagonal] <;> decide

theorem validSVD_cov25 :
    validSVD !![(25 : ℚ), 0, 0; 0, 25, 0; 0, 0, 25]
      (svdDiag !![(25 : ℚ), 0, 0; 0, 25, 0; 0, 0, 25]) := by
  refine ⟨by simp [svdDiag], by simp [svdDiag], by simp [svdDiag], by simp [svdDiag],
    fun i => by norm_num [svdDiag], ?_⟩
  simp only [svdDiag, Matrix.transpose_one, Matrix.one_mul, Matrix.mul_one]
  ext i j
  fin_cases i <;> fin_cases j <;> norm_num [Matrix.diagonal] <;> decide

/-- Witness for C3: a concrete 3×3 image matched against itself is returned
unchanged. -/
theorem C3_witness :
    color_match sqQ svdDiag false false ⟨3, 3, srcData⟩ ⟨3, 3, srcData⟩
      = ⟨3, 3, srcData⟩ :=
  C3_color_match_self_identity sqQ svdDiag false false ⟨3, 3, srcData⟩
    (fun i => by
      show sqQ (rowVar srcData i) ≠ 0
      rw [sq_rowVar_src i]; norm_num)
    (by
      show det3 (matSqrt sqQ (svdDiag (covEye (false && false) (normOf sqQ srcData)))) ≠ 0
      rw [Bool.and_self, normOf_src, covEye_src, matSqrt_cov9]
      norm_num [det3])

/-- Witness for the amended C5 at concrete data. -/
theorem C5_witness :
    rowMean (color_match_flat sqQ svdDiag false false srcData dstData25) 0
      = rowMean dstData25 0 :=
  C5_mean_matches_dst (by norm_num) sqQ svdDiag false false srcData dstData25 0

/-- **C5 counterexample** (claim corrected).  At the concrete pair
(`srcData`, 9 pixels; `dstData25`, 25 pixels) — with `svdDiag` a genuinely
valid SVD of both covariance matrices and `sqQ` agreeing with the real square
root on every value used — the output's channel-0 unbiased variance is `25/9`
while `dst`'s is `1`: the output standard deviation is `5/3` of `dst`'s, a
67% relative error, so the claimed "std ≈ dst's std within tolerance" fails.
(The covariance matrices `norm·normᵀ + I` are unnormalised, so they scale
with the pixel counts 9 and 25, and the transform inherits the factor
`sqrt(25/9)`.) -/
theorem C5_std_not_matched :
    validSVD (covEye false (normOf sqQ srcData))
        (svdDiag (covEye false (normOf sqQ srcData))) ∧
      validSVD (covEye false (normOf sqQ dstData25))
        (svdDiag (covEye false (normOf sqQ dstData25))) ∧
      (∀ i, sqQ (rowVar srcData i) ^ 2 = rowVar srcData i ∧
        0 ≤ sqQ (rowVar srcData i)) ∧
      (∀ i, sqQ (rowVar dstData25 i) ^ 2 = rowVar dstData25 i ∧
        0 ≤ sqQ (rowVar dstData25 i)) ∧
      sqQ 9 ^ 2 = 9 ∧ sqQ 25 ^ 2 = 25 ∧
      rowVar (color_match_flat sqQ svdDiag false false srcData dstData25) 0
        = 25 / 9 ∧
      rowVar dstData25 0 = 1 ∧
      ¬ (rowVar (color_match_flat sqQ svdDiag false false srcData dstData25) 0
          - rowVar dstData25 0 ≤ 1 / 10) := by
  have hout : rowVar (color_match_flat sqQ svdDiag false false srcData dstData25) 0
      = 25 / 9 := by
    rw [cm_eval]
    norm_num [rowVar, rowMean, outData, Fin.sum_univ_succ]
  refine ⟨?_, ?_, ?_, ?_, ?_, ?_, hout, rowVar_dst 0, ?_⟩
  · rw [normOf_src, covEye_src]; exact validSVD_cov9
  · rw [normOf_dst, covEye_dst]; exact validSVD_cov25
  · intro i
    rw [rowVar_src i]
    norm_num [sqQ]
  · intro i
    rw [rowVar_dst i]
    norm_num [sqQ]
  · norm_num [sqQ]
  · norm_num [sqQ]
  · rw [hout, rowVar_dst 0]
    norm_num

theorem rowVar_srcR : ∀ i, rowVar srcDataR i = 1 := by
  intro i
  fin_cases i <;> norm_num [rowVar, rowMean, srcDataR, Fin.sum_univ_succ]

theorem rowMean_srcR : ∀ i, rowMean srcDataR i = ![(10 : ℝ), 20, 30] i := by
  intro i
  fin_cases i <;> norm_num [rowMean, srcDataR, Fin.sum_univ_succ]

theorem normOf_srcR : normOf Real.sqrt srcDataR = srcDevR := by
  ext i j
  simp only [normOf, Matrix.of_apply, rowVar_srcR i, Real.sqrt_one]
  rw [rowMean_srcR i]
  fin_cases i <;> fin_cases j <;> norm_num [srcDataR, srcDevR]

theorem rowVar_dstR : ∀ i, rowVar dstDataR i = 1 := by
  intro i
  fin_cases i <;> norm_num [rowVar, rowMean, dstDataR, Fin.sum_univ_succ]

theorem rowMean_dstR : ∀ i, rowMean dstDataR i = ![(40 : ℝ), 50, 60] i := by
  intro i
  fin_cases i <;> norm_num [rowMean, dstDataR, Fin.sum_univ_succ]

theorem normOf_dstR : normOf Real.sqrt dstDataR = dstDevR := by
  ext i j
  simp only [normOf, Matrix.of_apply, rowVar_dstR i, Real.sqrt_one]
  rw [rowMean_dstR i]
  fin_cases i <;> fin_cases j <;> norm_num [dstDataR, dstDevR]

theorem covEye_srcR : covEye false srcDevR = covSR := by
  ext i j
  simp only [covEye, Bool.false_eq_true, if_false, Matrix.add_apply, mul_transpose_apply,
    Matrix.one_apply]
  fin_cases i <;> fin_cases j <;>
    norm_num [srcDevR, covSR, Fin.sum_univ_succ, -Matrix.cons_val', Matrix.cons_val_zero,
      Matrix.cons_val_succ, Matrix.cons_val_one, Matrix.head_cons] <;> decide

theorem covEye_dstR : covEye false dstDevR = covDR := by
  ext i j
  simp only [covEye, Bool.false_eq_true, if_false, Matrix.add_apply, mul_transpose_apply,
    Matrix.one_apply]
  fin_cases i <;> fin_cases j <;>
    norm_num [dstDevR, covDR, Fin.sum_univ_succ, -Matrix.cons_val', Matrix.cons_val_zero,
      Matrix.cons_val_succ, Matrix.cons_val_one, Matrix.head_cons] <;> decide

theorem sqrt2_sq : Real.sqrt 2 ^ 2 = 2 := Real.sq_sqrt (by norm_num)

theorem sqrt9_eq : Real.sqrt 9 = 3 := by
  rw [show (9 : ℝ) = 3 ^ 2 by norm_num, Real.sqrt_sq (by norm_num : (0 : ℝ) ≤ 3)]

theorem transpose_mul_self_apply (N : Mat3 K) (i j : Fin 3) :
    (Nᵀ * N) i j = ∑ k, N k i * N k j := by
  simp [Matrix.mul_apply, Matrix.transpose_apply]

theorem mul_diag_mul_transpose_apply (N : Mat3 K) (d : Fin 3 → K) (i j : Fin 3) :
    (N * Matrix.diagonal d * Nᵀ) i j = ∑ k, N i k * d k * N j k := by
  have h : ∀ k, (Matrix.diagonal d * Nᵀ) k j = d k * N j k := fun k => by
    rw [Matrix.diagonal_mul, Matrix.transpose_apply]
  rw [Matrix.mul_assoc, Matrix.mul_apply]
  simp only [h]
  exact Finset.sum_congr rfl fun k _ => by ring

theorem svdR_covS_U : (svdR covSR).1 = 1 := by
  norm_num [svdR, covSR]

theorem svdR_covS_D : (svdR covSR).2.1 = fun _ => (9 : ℝ) := by
  funext i
  norm_num [svdR, covSR]

theorem svdR_covS_V : (svdR covSR).2.2 = 1 := by
  norm_num [svdR, covSR]

theorem svdR_covD_U : (svdR covDR).1 = U2R := by
  norm_num [svdR, covDR]

theorem svdR_covD_D : (svdR covDR).2.1 = ![13, 9, 5] := by
  funext i
  norm_num [svdR, covDR]

theorem svdR_covD_V : (svdR covDR).2.2 = U2R := by
  norm_num [svdR, covDR]

theorem U2R_orth1 : U2Rᵀ * U2R = 1 := by
  ext i j
  rw [transpose_mul_self_apply]
  fin_cases i <;> fin_cases j <;>
    (norm_num [U2R, Fin.sum_univ_succ, Matrix.one_apply, Fin.ext_iff] <;> nlinarith [sqrt2_sq])

theorem U2R_orth2 : U2R * U2Rᵀ = 1 := by
  ext i j
  rw [mul_transpose_apply]
  fin_cases i <;> fin_cases j <;>
    (norm_num [U2R, Fin.sum_univ_succ, Matrix.one_apply, Fin.ext_iff] <;> nlinarith [sqrt2_sq])

theorem U2R_recomp : U2R * Matrix.diagonal ![13, 9, 5] * U2Rᵀ = covDR := by
  ext i j
  rw [mul_diag_mul_transpose_apply]
  fin_cases i <;> fin_cases j <;>
    (norm_num [U2R, covDR, Fin.sum_univ_succ] <;> nlinarith [sqrt2_sq])

theorem validSVD_covSR : validSVD covSR (svdR covSR) := by
  refine ⟨?_, ?_, ?_, ?_, ?_, ?_⟩
  · rw [svdR_covS_U]; simp
  · rw [svdR_covS_U]; simp
  · rw [svdR_covS_V]; simp
  · rw [svdR_covS_V]; simp
  · intro i; rw [svdR_covS_D]; norm_num
  · rw [svdR_covS_U, svdR_covS_V, svdR_covS_D]
    simp only [Matrix.transpose_one, Matrix.one_mul, Matrix.mul_one]
    ext i j
    fin_cases i <;> fin_cases j <;>
      norm_num [Matrix.diagonal, covSR, Fin.ext_iff]

theorem validSVD_covDR : validSVD covDR (svdR covDR) := by
  refine ⟨?_, ?_, ?_, ?_, ?_, ?_⟩
  · rw [svdR_covD_U]; exact U2R_orth1
  · rw [svdR_covD_U]; exact U2R_orth2
  · rw [svdR_covD_V]; exact U2R_orth1
  · rw [svdR_covD_V]; exact U2R_orth2
  · intro i; rw [svdR_covD_D]; fin_cases i <;> norm_num
  · rw [svdR_covD_U, svdR_covD_V, svdR_covD_D]; exact U2R_recomp

theorem matSqrt_code_covS :
    matSqrt Real.sqrt (svdR covSR) = !![3, 0, 0; 0, 3, 0; 0, 0, 3] := by
  simp only [matSqrt, svdR_covS_U, svdR_covS_D, svdR_covS_V]
  ext i j
  fin_cases i <;> fin_cases j <;>
    norm_num [Matrix.hadamard, Matrix.diagonal, Matrix.one_apply, Matrix.transpose_apply,
      Fin.ext_iff, sqrt9_eq]

theorem matSqrt_code_covD :
    matSqrt Real.sqrt (svdR covDR) = !![Real.sqrt 13 / 2, 0, 0; 0, 0, 0; 0, 0, 0] := by
  simp only [matSqrt, svdR_covD_U, svdR_covD_D, svdR_covD_V]
  ext i j
  fin_cases i <;> fin_cases j <;>
    (norm_num [Matrix.hadamard, Matrix.diagonal, Matrix.transpose_apply, Fin.ext_iff, U2R] <;>
      (ring_nf; norm_num [sqrt2_sq]; try ring_nf))

theorem matSqrt_spec_covS :
    matSqrt_spec Real.sqrt (svdR covSR) = !![3, 0, 0; 0, 3, 0; 0, 0, 3] := by
  simp only [matSqrt_spec, svdR_covS_U, svdR_covS_D, svdR_covS_V, Matrix.transpose_one,
    Matrix.one_mul, Matrix.mul_one]
  ext i j
  fin_cases i <;> fin_cases j <;> norm_num [Matrix.diagonal, Fin.ext_iff, sqrt9_eq]

theorem matSqrt_spec_covD :
    matSqrt_spec Real.sqrt (svdR covDR)
      = !![(Real.sqrt 13 + Real.sqrt 5) / 2, (Real.sqrt 13 - Real.sqrt 5) / 2, 0;
           (Real.sqrt 13 - Real.sqrt 5) / 2, (Real.sqrt 13 + Real.sqrt 5) / 2, 0;
           0, 0, 3] := by
  simp only [matSqrt_spec, svdR_covD_U, svdR_covD_D, svdR_covD_V]
  ext i j
  rw [mul_diag_mul_transpose_apply]
  fin_cases i <;> fin_cases j <;>
    (norm_num [U2R, Fin.sum_univ_succ, sqrt9_eq] <;>
      (ring_nf; norm_num [sqrt2_sq]; try ring_nf))

theorem inv3_diag3R :
    inv3 !![(3 : ℝ), 0, 0; 0, 3, 0; 0, 0, 3]
      = !![(1 : ℝ)/3, 0, 0; 0, 1/3, 0; 0, 0, 1/3] := by
  ext i j
  fin_cases i <;> fin_cases j <;>
    norm_num [inv3, det3, Matrix.vecHead, Matrix.vecTail, Function.comp]

theorem code_value_C2 :
    color_match_flat Real.sqrt svdR false false srcDataR dstDataR 1 0 = 50 := by
  simp only [color_match_flat, Bool.and_self, normOf_srcR, normOf_dstR,
    covEye_srcR, covEye_dstR, matSqrt_code_covS, matSqrt_code_covD, inv3_diag3R]
  simp only [Matrix.of_apply, rowVar_dstR, Real.sqrt_one]
  rw [rowMean_dstR]
  norm_num [Matrix.mul_apply, Matrix.hadamard, srcDevR, Fin.sum_univ_succ]

theorem spec_value_C2 :
    color_match_spec_flat Real.sqrt svdR false false srcDataR dstDataR 1 0
      = 50 + (Real.sqrt 13 - Real.sqrt 5) / 3 := by
  simp only [color_match_spec_flat, Bool.and_self, normOf_srcR, normOf_dstR,
    covEye_srcR, covEye_dstR, matSqrt_spec_covS, matSqrt_spec_covD, inv3_diag3R]
  simp only [Matrix.of_apply, rowVar_dstR, Real.sqrt_one]
  rw [rowMean_dstR]
  norm_num [Matrix.mul_apply, srcDevR, Fin.sum_univ_succ]
  ring

/-- **C2** (refuted, code bug).  The claim says `color_match` computes the
transformed pixels as `T @ src_norm` with `T` the **matrix product**
`sqrt(dst_cov) · inverse(sqrt(src_cov))` (square roots per §4.1).  Line 161
instead combines the two square-root matrices with the **elementwise** `*`
(and `matSqrt` itself is elementwise, claim C1).  At the concrete pair
(`srcDataR`, `dstDataR`) — with `svdR` a genuinely valid SVD of both
covariance matrices (proved below) and the square-root oracle the real
`Real.sqrt` — the code leaves output entry (1,0) at `dst`'s channel mean 50,
while the claimed formula yields `50 + (√13 − √5)/3 ≈ 50.456`: the two
computations are different functions of the input. -/
theorem C2_transform_is_not_matrix_product :
    validSVD (covEye false (normOf Real.sqrt srcDataR))
        (svdR (covEye false (normOf Real.sqrt srcDataR))) ∧
      validSVD (covEye false (normOf Real.sqrt dstDataR))
        (svdR (covEye false (normOf Real.sqrt dstDataR))) ∧
      color_match_flat Real.sqrt svdR false false srcDataR dstDataR 1 0 = 50 ∧
      color_match_spec_flat Real.sqrt svdR false false srcDataR dstDataR 1 0
        = 50 + (Real.sqrt 13 - Real.sqrt 5) / 3 ∧
      color_match_flat Real.sqrt svdR false false srcDataR dstDataR 1 0
        ≠ color_match_spec_flat Real.sqrt svdR false false srcDataR dstDataR 1 0 := by
  have hlt : Real.sqrt 5 < Real.sqrt 13 := by
    apply Real.sqrt_lt_sqrt (by norm_num) (by norm_num)
  refine ⟨?_, ?_, code_value_C2, spec_value_C2, ?_⟩
  · rw [normOf_srcR, covEye_srcR]
    exact validSVD_covSR
  · rw [normOf_dstR, covEye_dstR]
    exact validSVD_covDR
  · rw [code_value_C2, spec_value_C2]
    intro h
    have : (Real.sqrt 13 - Real.sqrt 5) / 3 = 0 := by linarith
    have : Real.sqrt 13 = Real.sqrt 5 := by linarith
    linarith

/-- **C4** (confirmed).  `color_match(src, dst)` returns a tensor of exactly
`src`'s shape, whatever `dst`'s height and width are: the computation works on
`view(3, -1)` flattenings and line 163 reshapes with `view_as(src)`. -/
theorem C4_color_match_shape (sq : K → K)
    (svd : Mat3 K → Mat3 K × (Fin 3 → K) × Mat3 K)
    (cuda avail : Bool) (src dst : Img K) :
    (color_match sq svd cuda avail src dst).h = src.h ∧
      (color_match sq svd cuda avail src dst).w = src.w :=
  ⟨rfl, rfl⟩

/-- Witness for C4 at concrete data: a 3×3 source against a 5×5 destination. -/
theorem C4_witness :
    (color_match sqQ svdDiag false false ⟨3, 3, srcData⟩ ⟨5, 5, dstData25⟩).h = 3 ∧
      (color_match sqQ svdDiag false false ⟨3, 3, srcData⟩ ⟨5, 5, dstData25⟩).w = 3 :=
  C4_color_match_shape sqQ svdDiag false false ⟨3, 3, srcData⟩ ⟨5, 5, dstData25⟩

/-- **C6** (confirmed).  With `cuda = True` but no accelerator detected
(`torch.cuda.is_available()` false), `color_match` computes exactly the same
function of `(src, dst)` as with `cuda = False`: the guard on line 152 makes
both runs take the host branch, and the two branches differ only in where
`torch.eye(3)` is allocated, not in its value. -/
theorem C6_cuda_flag_degrades_gracefully (sq : K → K)
    (svd : Mat3 K → Mat3 K × (Fin 3 → K) × Mat3 K)
    (avail : Bool) (src dst : Img K) :
    color_match sq svd true false src dst = color_match sq svd false avail src dst :=
  rfl

/-- Witness for C6 at concrete data. -/
theorem C6_witness :
    color_match sqQ svdDiag true false ⟨3, 3, srcData⟩ ⟨5, 5, dstData25⟩
      = color_match sqQ svdDiag false true ⟨3, 3, srcData⟩ ⟨5, 5, dstData25⟩ :=
  C6_cuda_flag_degrades_gracefully sqQ svdDiag true ⟨3, 3, srcData⟩ ⟨5, 5, dstData25⟩

/-- A constant-valued channel has unbiased variance exactly 0, so on such a
`src` line 145 divides by (the square root of) zero — the statable core of the
degenerate-variance behavior; the resulting Inf/NaN propagation is IEEE
floating-point semantics outside this exact embedding. -/
theorem rowVar_of_constant_channel {n : ℕ} (hn : (n : K) ≠ 0) (A : Flat K n)
    (i : Fin 3) (c : K) (h : ∀ j, A i j = c) : rowVar A i = 0 := by
  have hm : rowMean A i = c := by
    simp only [rowMean, h, Finset.sum_const, Finset.card_univ, Fintype.card_fin,
      nsmul_eq_mul]
    field_simp
  simp [rowVar, h, hm]

/-- **C9** (confirmed).  `preprocess_batch` is an involution on 4-dimensional
batches with 3 channels: swapping RGB to BGR twice restores the original. -/
theorem C9_preprocess_batch_involution {α : Type} (batch : Batch α) :
    preprocess_batch (preprocess_batch batch) = batch := by
  funext b c y x
  have hc : (![2, 1, 0] : Fin 3 → Fin 3) (![2, 1, 0] c) = c := by
    fin_cases c <;> rfl
  simp only [preprocess_batch, transpose01, transpose01back, catBGR]
  rw [hc]

/-- Witness for C9 at a concrete batch. -/
theorem C9_witness :
    preprocess_batch (preprocess_batch (fun b c y x => ((b + c.val + y + x : ℕ) : ℚ)))
      = fun b c y x => ((b + c.val + y + x : ℕ) : ℚ) :=
  C9_preprocess_batch_involution _

/-- **C10** (confirmed).  For a loader over a non-empty folder, `get(i)`
accesses position `i % size()`, which is always in range, and
`get(i + size())` loads the same file as `get(i)`. -/
theorem C10_styleLoader_wraps (L : StyleLoader) (hne : L.files ≠ []) (i : ℕ) :
    L.getIdx i = i % L.size ∧ L.getIdx i < L.size ∧
      L.getFile (i + L.size) = L.getFile i := by
  have hpos : 0 < L.files.length := List.length_pos.mpr hne
  refine ⟨rfl, Nat.mod_lt _ hpos, ?_⟩
  simp [StyleLoader.getFile, StyleLoader.getIdx, StyleLoader.size,
    Nat.add_mod_right]

/-- Witness for C10: a concrete two-file loader, checked at `i = 5`. -/
theorem C10_witness :
    loaderX.getIdx 5 = 5 % loaderX.size ∧ loaderX.getIdx 5 < loaderX.size ∧
      loaderX.getFile (5 + loaderX.size) = loaderX.getFile 5 :=
  C10_styleLoader_wraps loaderX (by simp [loaderX]) 5

end NeuralStyle
